import Mathlib

/-!
# Medbook Hospital Booking — verification of the core spec

Shallow embedding of `src/Medbook/table.py` (Flask + SQLAlchemy service).
Times of day are modelled as minutes since midnight (`Nat`), calendar dates
as day ordinals (`Nat`), the SQL tables as Lean lists of rows, and each
route handler as a pure function from a database state (plus the request
data it reads) to a response value and a new state.
-/

namespace Medbook

/-- `DAY_ORDER` from table.py: canonical weekday abbreviations, Monday first. -/
def DAY_ORDER : List String := ["Mon", "Tue", "Wed", "Thu", "Fri", "Sat", "Sun"]

/-- Sort key used by `summarize_availability`:
`DAY_ORDER.index(d) if d in DAY_ORDER else 99`. -/
def dayKey (d : String) : Nat :=
  if d ∈ DAY_ORDER then DAY_ORDER.indexOf d else 99

/-- One availability block as produced by `_availability_blocks`:
the dict `{'day': ..., 'start': ..., 'end': ...}`.  The `end` key is named
`stop` here because `end` is a Lean keyword; `start`/`stop` are minutes
since midnight (the `%H:%M` strings compare and group exactly like these
minute counts, since `strftime('%H:%M')` is injective at minute precision). -/
structure Block where
  day : String
  start : Nat
  stop : Nat
deriving DecidableEq

/-- The `(blk['start'], blk['end'])` grouping key of a block. -/
def rangeOf (b : Block) : Nat × Nat := (b.start, b.stop)

/-- Python's `str.lstrip('0')`: drop every leading `'0'` character. -/
def lstrip0 (s : String) : String :=
  ⟨s.data.dropWhile (fun c => c == '0')⟩

/-- Python's `str.strip()`: drop leading and trailing whitespace. -/
def pyStrip (s : String) : String :=
  ⟨((s.data.dropWhile Char.isWhitespace).reverse.dropWhile Char.isWhitespace).reverse⟩

/-- Two-digit zero padding, as in `strftime` fields `%I` and `%M`. -/
def pad2 (n : Nat) : String :=
  if n < 10 then "0" ++ toString n else toString n

/-- `_fmt` inside `summarize_availability`: render minutes since midnight via
`strftime('%I:%M %p').lstrip('0')` — 12-hour clock, zero-padded fields, then
all leading `'0'` characters stripped. -/
def fmt12 (t : Nat) : String :=
  let h := t / 60
  let m := t % 60
  let h12 := if h % 12 = 0 then 12 else h % 12
  let ampm := if h < 12 then "AM" else "PM"
  lstrip0 (pad2 h12 ++ ":" ++ pad2 m ++ " " ++ ampm)

/-- One `buckets[(start, end)].append(day)` step of `summarize_availability`:
append the day to the entry with this block's range key, or create the entry
at the back (Python dicts preserve insertion order). -/
def addBlock (acc : List ((Nat × Nat) × List String)) (b : Block) :
    List ((Nat × Nat) × List String) :=
  if acc.any (fun e => e.1 == rangeOf b) then
    acc.map (fun e => if e.1 == rangeOf b then (e.1, e.2 ++ [b.day]) else e)
  else
    acc ++ [(rangeOf b, [b.day])]

/-- The `buckets` defaultdict of `summarize_availability`: ranges in order of
first occurrence, each with its days in input order. -/
def buckets (blocks : List Block) : List ((Nat × Nat) × List String) :=
  blocks.foldl addBlock []

/-- Keep-first deduplication.  Models Python's `set(days)` as the input's
distinct elements; CPython's set iteration order is hash-dependent, but any
order with the same elements yields the same result after the key sort below
whenever the keys are injective (all days canonical), which is the only case
the source relies on. -/
def dedupFirst {α : Type} [DecidableEq α] (l : List α) : List α :=
  l.foldl (fun acc d => if d ∈ acc then acc else acc ++ [d]) []

/-- `sorted(set(days), key=lambda d: DAY_ORDER.index(d) if d in DAY_ORDER else 99)`:
deduplicate, then stable-sort by `dayKey` (Python's `sorted` is stable;
`List.insertionSort` with a total preorder is the same stable sort). -/
def sortedDays (days : List String) : List String :=
  List.insertionSort (fun a b => dayKey a ≤ dayKey b) (dedupFirst days)

instance : IsTotal String (fun a b => dayKey a ≤ dayKey b) :=
  ⟨fun _ _ => Nat.le_total _ _⟩

instance : IsTrans String (fun a b => dayKey a ≤ dayKey b) :=
  ⟨fun _ _ _ => Nat.le_trans⟩

instance : IsTotal (Nat × String) (fun a b => a.1 ≤ b.1) :=
  ⟨fun _ _ => Nat.le_total _ _⟩

instance : IsTrans (Nat × String) (fun a b => a.1 ≤ b.1) :=
  ⟨fun _ _ _ => Nat.le_trans⟩

/-- One segment of the summary: the `(DAY_ORDER.index(days[0]) .. else 99,
f"{', '.join(days)}: {_fmt(start)} - {_fmt(end)}")` pair built for a bucket. -/
def segmentOf (range : Nat × Nat) (days : List String) : Nat × String :=
  let ds := sortedDays days
  let key := match ds.head? with
    | some d => dayKey d
    | none => 99
  (key, String.intercalate ", " ds ++ ": " ++ fmt12 range.1 ++ " - " ++ fmt12 range.2)

/-- All segments of `summarize_availability`, in bucket (first-occurrence) order. -/
def segments (blocks : List Block) : List (Nat × String) :=
  (buckets blocks).map (fun e => segmentOf e.1 e.2)

/-- `summarize_availability(blocks)` from table.py: `None` on empty input,
otherwise the segments stable-sorted by their day key and joined with `' | '`. -/
def summarize_availability (blocks : List Block) : Option String :=
  if blocks.isEmpty then none
  else
    let segs := List.insertionSort (fun a b => a.1 ≤ b.1) (segments blocks)
    some (String.intercalate " | " (segs.map Prod.snd))

/-- The slot-emitting `while cursor < end_dt` loop of `get_doctor_availability`:
starting at `cursor` minutes, emit the cursor and step by 30 minutes while
strictly before `stop`. -/
def genSlots (cursor stop : Nat) : List Nat :=
  if _h : cursor < stop then cursor :: genSlots (cursor + 30) stop else []
termination_by stop - cursor
decreasing_by omega

/-! ## Database state

Row types carry exactly the columns the claims depend on; unreached columns
(emails, phones, passwords, ...) are omitted.  Primary keys stay explicit so
that uniqueness of ids can be stated where a claim needs it. -/

/-- A row of the `doctors` table (columns used by the core operations). -/
structure DoctorRow where
  doctorid : Nat
  name : String
  speciality : String
  hospitalid : Nat
  approval_status : String
deriving DecidableEq

/-- A row of `doctor_availability`:
`(dayname, doctorid, starttime, endtime)`, times in minutes since midnight. -/
structure AvailRow where
  dayname : String
  doctorid : Nat
  starttime : Nat
  endtime : Nat
deriving DecidableEq

/-- A row of `appointments`.  `status` is the Boolean column:
`True = scheduled, False = cancelled`.  Dates are day ordinals and times
minutes since midnight; `created_at` is an abstract timestamp. -/
structure Appt where
  appointmentid : Nat
  userid : Nat
  doctorid : Nat
  status : Bool
  appointment_date : Nat
  appointment_time : Nat
  reason : String
  created_at : Nat
deriving DecidableEq

/-- A row of `doctor_reviews`.  `rating` is the `Numeric(2,1)` score, exact
as a rational. -/
structure Review where
  reviewid : Nat
  doctorid : Nat
  userid : Nat
  appointmentid : Nat
  rating : ℚ
  comments : Option String
  created_at : Nat
deriving DecidableEq

/-- The durable store: the five tables the core touches plus the identity
counters that generate fresh primary keys on insert.  `users` keeps only the
ids (the booking path reads nothing else from a user row); `hospitals` keeps
id and name (the read join uses the name). -/
structure DB where
  users : List Nat
  hospitals : List (Nat × String)
  doctors : List DoctorRow
  avail : List AvailRow
  appointments : List Appt
  reviews : List Review
  nextApptId : Nat
  nextReviewId : Nat
deriving DecidableEq

/-- `Doctor.query.get(id)`: first row with this primary key. -/
def findDoctor (s : DB) (did : Nat) : Option DoctorRow :=
  s.doctors.find? (fun d => d.doctorid == did)

/-- `Hospital.query.get(id)`. -/
def findHospital (s : DB) (hid : Nat) : Option (Nat × String) :=
  s.hospitals.find? (fun h => h.1 == hid)

/-- `Appointment.query.get(id)`. -/
def findAppt (s : DB) (aid : Nat) : Option Appt :=
  s.appointments.find? (fun a => a.appointmentid == aid)

/-! ## Read path -/

/-- `GET /doctors` (`get_doctors`): inner join of `doctors` with `hospitals`,
filtered to `approval_status == 'approved'`; each listed doctor is paired
with its hospital name. -/
def get_doctors (s : DB) : List (DoctorRow × String) :=
  s.doctors.filterMap (fun d =>
    if d.approval_status == "approved" then
      (findHospital s d.hospitalid).map (fun h => (d, h.2))
    else none)

/-- `GET /doctors/<id>` (`get_doctor_detail`): the join row for this doctor
id with `approval_status == 'approved'`, or `none` (the 404 branch). -/
def get_doctor_detail (s : DB) (did : Nat) : Option (DoctorRow × String) :=
  match s.doctors.find? (fun d => d.doctorid == did && d.approval_status == "approved") with
  | none => none
  | some d => (findHospital s d.hospitalid).map (fun h => (d, h.2))

/-- `GET /doctors/<id>/availability?date=...` (`get_doctor_availability`),
given the target date's weekday abbreviation (`target_date.strftime('%a')`).
Requires an approved doctor (otherwise `[]`), takes the **first** availability
row matching `(doctorid, dayname)` (`.first()` in the source), and emits
30-minute slots from its start while strictly before its end.  The route
renders each slot with `strftime('%H:%M')`; slots are returned here as
minutes since midnight, which that rendering maps injectively and
monotonically to the returned strings. -/
def get_doctor_availability (s : DB) (did : Nat) (day_abbrev : String) : List Nat :=
  match s.doctors.find? (fun d => d.doctorid == did && d.approval_status == "approved") with
  | none => []
  | some _ =>
    match s.avail.find? (fun r => r.doctorid == did && r.dayname == day_abbrev) with
    | none => []
    | some w => genSlots w.starttime w.endtime

/-- `get_review_aggregates` restricted to one doctor id: the
`GROUP BY doctorid` row `{review_count, avg_rating}` for that doctor, absent
(`none`) when the doctor has no reviews. -/
def get_review_aggregates (s : DB) (did : Nat) : Option (Nat × ℚ) :=
  let rs := s.reviews.filter (fun r => r.doctorid == did)
  if rs.isEmpty then none
  else some (rs.length, (rs.map Review.rating).sum / rs.length)

/-! ## Booking write path -/

/-- `default_reason(val)`: the given reason when present and not blank,
otherwise the sentinel `'Unstated'`. -/
def default_reason (val : Option String) : String :=
  match val with
  | some v => if pyStrip v == "" then "Unstated" else v
  | none => "Unstated"

/-- Outcome of `POST /appointments`: the 201 payload, a `json_error(..., 400)`,
or the `json_error('Database error creating appointment', 500)` branch that
wraps any exception raised by the insert/commit. -/
inductive BookResult where
  | created (a : Appt)
  | badRequest (msg : String)
  | dbError (msg : String)
deriving DecidableEq

/-- HTTP status of a `BookResult`. -/
def bookHttpStatus : BookResult → Nat
  | .created _ => 201
  | .badRequest _ => 400
  | .dbError _ => 500

/-- The `uq_doctor_slot` constraint installed by `ensure_schema`:
`UNIQUE (doctorid, appointment_date, appointment_time)` over the whole
`appointments` table.  Note it does **not** condition on `status`: cancelled
rows participate.  An insert violating it raises, which
`create_appointment` turns into its 500 branch. -/
def violatesUqDoctorSlot (s : DB) (did dte tme : Nat) : Bool :=
  s.appointments.any (fun a =>
    a.doctorid == did && a.appointment_date == dte && a.appointment_time == tme)

/-- `POST /appointments` (`create_appointment`) after JSON-presence and
date/time-format validation (both 400s that touch no table): checks the user
and doctor exist (`Invalid user or doctor`, 400), then inserts the new
`scheduled` appointment; the durable layer's `uq_doctor_slot` violation is
caught by the bare `except` and surfaced as the 500
`'Database error creating appointment'`.  No approval-status or
availability/slot check appears anywhere on this path. -/
def create_appointment (s : DB) (userid doctorid dte tme : Nat)
    (reason : Option String) (now : Nat) : BookResult × DB :=
  if !(s.users.contains userid) || (findDoctor s doctorid).isNone then
    (BookResult.badRequest "Invalid user or doctor", s)
  else
    let appt : Appt :=
      { appointmentid := s.nextApptId, userid := userid, doctorid := doctorid,
        status := true, appointment_date := dte, appointment_time := tme,
        reason := default_reason reason, created_at := now }
    if violatesUqDoctorSlot s doctorid dte tme then
      (BookResult.dbError "Database error creating appointment", s)
    else
      (BookResult.created appt,
       { s with appointments := s.appointments ++ [appt],
                nextApptId := s.nextApptId + 1 })

/-- Outcome of `PUT /appointments/<id>/cancel`. -/
inductive CancelResult where
  | ok (appointmentid : Nat) (status : Bool)
  | notFound
  | alreadyCancelled
deriving DecidableEq

/-- HTTP status of a `CancelResult`: 200, `json_error('Appointment not found', 404)`,
or `json_error('Already cancelled', 400)`. -/
def cancelHttpStatus : CancelResult → Nat
  | .ok _ _ => 200
  | .notFound => 404
  | .alreadyCancelled => 400

/-- `cancel_appointment`: 404 when the id is absent, 400 `Already cancelled`
when `status` is already `False`, otherwise flip `status` to `False` and
return the 200 payload.  The ORM mutates the fetched row in place; with
`appointmentid` a primary key that is the same as mapping the update over
rows with this id. -/
def cancel_appointment (s : DB) (aid : Nat) : CancelResult × DB :=
  match findAppt s aid with
  | none => (CancelResult.notFound, s)
  | some a =>
    if !a.status then (CancelResult.alreadyCancelled, s)
    else
      (CancelResult.ok aid false,
       { s with appointments := s.appointments.map (fun x =>
           if x.appointmentid == aid then { x with status := false } else x) })

/-! ## Rating write path -/

/-- The `rating` field of the request body: absent, present but not
convertible by `float(...)`, or a number (exact rational). -/
inductive RatingField where
  | missing
  | nonNumeric
  | num (q : ℚ)

/-- Outcome of `POST /appointments/<id>/rating`. -/
inductive RateResult where
  | ok (action : String) (rating : ℚ)
  | notFound
  | badRequest (msg : String)
deriving DecidableEq

/-- Python's built-in `round` at integer precision: nearest integer, exact
halves to the even neighbour (banker's rounding). -/
def roundHalfEven (x : ℚ) : ℤ :=
  if Int.fract x < 1/2 then ⌊x⌋
  else if 1/2 < Int.fract x then ⌊x⌋ + 1
  else if ⌊x⌋ % 2 = 0 then ⌊x⌋ else ⌊x⌋ + 1

/-- `round(rating_val * 2) / 2.0`: the accepted score snapped to half-star
granularity. -/
def normalizeScore (q : ℚ) : ℚ :=
  (roundHalfEven (q * 2) : ℚ) / 2

/-- `(data.get('comment') or data.get('comments') or '').strip() or None`. -/
def normalizeComment (comment : Option String) : Option String :=
  match comment with
  | some c => if pyStrip c == "" then none else some (pyStrip c)
  | none => none

/-- `rate_appointment`: 404 when the appointment is absent; 400 for a
cancelled appointment; 400 unless the appointment date is strictly past
(`appointment_date >= today` rejected); 400 when `rating` is missing, not a
number, or outside `[1, 5]`; otherwise round to the nearest half star and
upsert the one review row for this appointment (update in place if one
exists, else insert a fresh row). -/
def rate_appointment (s : DB) (aid : Nat) (today : Nat) (rating : RatingField)
    (comment : Option String) (now : Nat) : RateResult × DB :=
  match findAppt s aid with
  | none => (RateResult.notFound, s)
  | some appt =>
    if !appt.status then
      (RateResult.badRequest "Cannot rate a cancelled appointment", s)
    else if today ≤ appt.appointment_date then
      (RateResult.badRequest "Can only rate a completed (past) appointment", s)
    else
      match rating with
      | RatingField.missing => (RateResult.badRequest "rating required", s)
      | RatingField.nonNumeric => (RateResult.badRequest "rating must be a number", s)
      | RatingField.num q =>
        if q < 1 ∨ 5 < q then
          (RateResult.badRequest "rating must be between 1 and 5", s)
        else
          let rating_val := normalizeScore q
          let comments := normalizeComment comment
          if (s.reviews.find? (fun r => r.appointmentid == aid)).isSome then
            (RateResult.ok "updated" rating_val,
             { s with reviews := s.reviews.map (fun r =>
                 if r.appointmentid == aid then
                   { r with rating := rating_val, comments := comments, created_at := now }
                 else r) })
          else
            (RateResult.ok "created" rating_val,
             { s with
                 reviews := s.reviews ++
                   [{ reviewid := s.nextReviewId, doctorid := appt.doctorid,
                      userid := appt.userid, appointmentid := aid,
                      rating := rating_val, comments := comments, created_at := now }],
                 nextReviewId := s.nextReviewId + 1 })

/-! ## Concrete states

Small stores used to evaluate the operations at explicit inputs (one per
claim, mirroring the shapes in `seed_data.py`). -/

/-- Store with one approved doctor and one **scheduled** appointment for
user 1 at (doctor 1, date 100, time 540 = 09:00). -/
def dbC1 : DB :=
  { users := [1], hospitals := [(1, "City Hospital")],
    doctors := [{ doctorid := 1, name := "Dr. Alice Smith", speciality := "Cardiology",
                  hospitalid := 1, approval_status := "approved" }],
    avail := [{ dayname := "Mon", doctorid := 1, starttime := 540, endtime := 720 }],
    appointments := [{ appointmentid := 1, userid := 1, doctorid := 1, status := true,
                       appointment_date := 100, appointment_time := 540,
                       reason := "checkup", created_at := 0 }],
    reviews := [], nextApptId := 2, nextReviewId := 1 }

/-- Store with two users and a **scheduled** appointment occupying
(doctor 1, date 100, time 540); user 2 will attempt the same slot. -/
def dbC2 : DB :=
  { users := [1, 2], hospitals := [(1, "City Hospital")],
    doctors := [{ doctorid := 1, name := "Dr. Alice Smith", speciality := "Cardiology",
                  hospitalid := 1, approval_status := "approved" }],
    avail := [{ dayname := "Mon", doctorid := 1, starttime := 540, endtime := 720 }],
    appointments := [{ appointmentid := 1, userid := 1, doctorid := 1, status := true,
                       appointment_date := 100, appointment_time := 540,
                       reason := "checkup", created_at := 0 }],
    reviews := [], nextApptId := 2, nextReviewId := 1 }

/-- Store with an approved doctor having **two** Monday windows,
09:00–10:00 and 14:00–15:00 (both with start < end). -/
def dbC3cex : DB :=
  { users := [1], hospitals := [(1, "City Hospital")],
    doctors := [{ doctorid := 1, name := "Dr. Alice Smith", speciality := "Cardiology",
                  hospitalid := 1, approval_status := "approved" }],
    avail := [{ dayname := "Mon", doctorid := 1, starttime := 540, endtime := 600 },
              { dayname := "Mon", doctorid := 1, starttime := 840, endtime := 900 }],
    appointments := [], reviews := [], nextApptId := 1, nextReviewId := 1 }

/-- Store with an approved doctor and a single Monday window 09:00–12:00. -/
def dbC3w : DB :=
  { users := [1], hospitals := [(1, "City Hospital")],
    doctors := [{ doctorid := 1, name := "Dr. Alice Smith", speciality := "Cardiology",
                  hospitalid := 1, approval_status := "approved" }],
    avail := [{ dayname := "Mon", doctorid := 1, starttime := 540, endtime := 720 }],
    appointments := [], reviews := [], nextApptId := 1, nextReviewId := 1 }

/-- Store with a **pending** doctor (id 2) who has a Monday window, and an
existing user 1; no appointments yet. -/
def dbC4cex : DB :=
  { users := [1], hospitals := [(1, "City Hospital")],
    doctors := [{ doctorid := 2, name := "Dr. Bob Lee", speciality := "Dermatology",
                  hospitalid := 1, approval_status := "pending" }],
    avail := [{ dayname := "Mon", doctorid := 2, starttime := 540, endtime := 720 }],
    appointments := [], reviews := [], nextApptId := 1, nextReviewId := 1 }

/-- Store with a **rejected** doctor (id 3) who nevertheless has an
availability window configured. -/
def dbC5w : DB :=
  { users := [1], hospitals := [(1, "Lakeside Clinic")],
    doctors := [{ doctorid := 3, name := "Dr. Carol Jones", speciality := "Neurology",
                  hospitalid := 1, approval_status := "rejected" }],
    avail := [{ dayname := "Thu", doctorid := 3, starttime := 510, endtime := 690 }],
    appointments := [], reviews := [], nextApptId := 1, nextReviewId := 1 }

/-- Store with a scheduled appointment 1 and an already-cancelled
appointment 2 (and no appointment 3). -/
def dbC7w : DB :=
  { users := [1], hospitals := [(1, "City Hospital")],
    doctors := [{ doctorid := 1, name := "Dr. Alice Smith", speciality := "Cardiology",
                  hospitalid := 1, approval_status := "approved" }],
    avail := [],
    appointments := [{ appointmentid := 1, userid := 1, doctorid := 1, status := true,
                       appointment_date := 100, appointment_time := 540,
                       reason := "checkup", created_at := 0 },
                     { appointmentid := 2, userid := 1, doctorid := 1, status := false,
                       appointment_date := 101, appointment_time := 600,
                       reason := "Unstated", created_at := 0 }],
    reviews := [], nextApptId := 3, nextReviewId := 1 }

/-- Store with a past (date 100), scheduled, not-yet-rated appointment 1;
evaluation happens at `today = 200`. -/
def dbC8w : DB :=
  { users := [1], hospitals := [(1, "City Hospital")],
    doctors := [{ doctorid := 1, name := "Dr. Alice Smith", speciality := "Cardiology",
                  hospitalid := 1, approval_status := "approved" }],
    avail := [],
    appointments := [{ appointmentid := 1, userid := 1, doctorid := 1, status := true,
                       appointment_date := 100, appointment_time := 540,
                       reason := "visit", created_at := 0 }],
    reviews := [], nextApptId := 2, nextReviewId := 1 }

/-- Store with two scheduled appointments and one stored rating, used to
observe the frame of a cancellation. -/
def dbC10w : DB :=
  { users := [1], hospitals := [(1, "City Hospital")],
    doctors := [{ doctorid := 1, name := "Dr. Alice Smith", speciality := "Cardiology",
                  hospitalid := 1, approval_status := "approved" }],
    avail := [],
    appointments := [{ appointmentid := 1, userid := 1, doctorid := 1, status := true,
                       appointment_date := 100, appointment_time := 540,
                       reason := "checkup", created_at := 0 },
                     { appointmentid := 2, userid := 1, doctorid := 1, status := true,
                       appointment_date := 101, appointment_time := 600,
                       reason := "follow-up", created_at := 0 }],
    reviews := [{ reviewid := 1, doctorid := 1, userid := 1, appointmentid := 9,
                  rating := mkRat 5 1, comments := none, created_at := 0 }],
    nextApptId := 3, nextReviewId := 2 }

/-! ## Slot generator lemmas -/

/-- The emitted slots are exactly the 30-minute multiples from the start
that lie strictly before the stop time. -/
theorem genSlots_mem (c e t : Nat) :
    t ∈ genSlots c e ↔ ∃ k, t = c + 30 * k ∧ t < e := by
  induction c, e using genSlots.induct with
  | case1 c e h ih =>
    rw [genSlots, dif_pos h]
    simp only [List.mem_cons, ih]
    constructor
    · rintro (rfl | ⟨k, rfl, hk⟩)
      · exact ⟨0, by omega, h⟩
      · exact ⟨k + 1, by omega, hk⟩
    · rintro ⟨k, rfl, hk⟩
      cases k with
      | zero => left; omega
      | succ k => right; exact ⟨k, by omega, hk⟩
  | case2 c e h =>
    rw [genSlots, dif_neg h]
    simp only [List.not_mem_nil, false_iff, not_exists]
    rintro k ⟨rfl, hk⟩
    omega

/-- The emitted slot list is strictly increasing. -/
theorem genSlots_sorted (c e : Nat) : List.Sorted (· < ·) (genSlots c e) := by
  induction c, e using genSlots.induct with
  | case1 c e h ih =>
    rw [genSlots, dif_pos h]
    refine List.sorted_cons.mpr ⟨?_, ih⟩
    intro b hb
    rcases (genSlots_mem _ _ _).mp hb with ⟨k, rfl, _⟩
    omega
  | case2 c e h =>
    rw [genSlots, dif_neg h]
    exact List.sorted_nil

/-! ## Claim theorems -/

/-- C1: the spec requires that cancelled rows do not block rebooking of the
same (provider, date, time) slot.  The code violates this: `uq_doctor_slot`
is `UNIQUE (doctorid, appointment_date, appointment_time)` with no status
condition, so after a successful cancel the cancelled row still occupies the
slot and the re-book attempt hits the constraint, surfacing as the 500
`'Database error creating appointment'` instead of succeeding. -/
theorem C1_rebooking_blocked_by_cancelled_row :
    (cancel_appointment dbC1 1).1 = CancelResult.ok 1 false ∧
    (findAppt (cancel_appointment dbC1 1).2 1).map Appt.status = some false ∧
    (create_appointment (cancel_appointment dbC1 1).2 1 1 100 540 (some "rebook") 7).1 =
      BookResult.dbError "Database error creating appointment" ∧
    bookHttpStatus
      (create_appointment (cancel_appointment dbC1 1).2 1 1 100 540 (some "rebook") 7).1 = 500 := by
  decide

/-- C2: the claim (and spec) require the durable layer's uniqueness-violation
signal to surface as a 409 Conflict with a descriptive message.  The code's
`except` branch instead returns the generic 500
`'Database error creating appointment'`: booking an already-occupied
(doctor 1, date 100, time 540) slot for user 2 yields the 500, and the store
is left unchanged (rollback). -/
theorem C2_slot_conflict_returns_500_not_conflict :
    (findAppt dbC2 1).map Appt.status = some true ∧
    violatesUqDoctorSlot dbC2 1 100 540 = true ∧
    create_appointment dbC2 2 1 100 540 none 3 =
      (BookResult.dbError "Database error creating appointment", dbC2) ∧
    bookHttpStatus (create_appointment dbC2 2 1 100 540 none 3).1 = 500 := by
  decide

/-- C3 counterexample: the claim says the slot query covers **every** window
matching the weekday.  With two Monday windows 09:00–10:00 and 14:00–15:00
(both with start < end), the query returns only the first window's slots
`[540, 570]`; 14:00 (= 840 = second window's start + 30·0, strictly before
its end 900) is missing. -/
theorem C3_second_window_ignored :
    (∀ w ∈ dbC3cex.avail, w.starttime < w.endtime) ∧
    (⟨"Mon", 1, 840, 900⟩ : AvailRow) ∈ dbC3cex.avail ∧
    get_doctor_availability dbC3cex 1 "Mon" = [540, 570] ∧
    840 ∉ get_doctor_availability dbC3cex 1 "Mon" := by
  have h : get_doctor_availability dbC3cex 1 "Mon" = genSlots 540 600 := rfl
  have hg : genSlots 540 600 = [540, 570] := by simp [genSlots]
  refine ⟨by decide, by decide, h.trans hg, ?_⟩
  rw [h, hg]
  decide

/-- C3 amended: the slot query reads only the **first** availability row
matching `(doctorid, dayname)`.  For that window the claim's slot arithmetic
holds: the result is exactly the times `start + 30k` strictly before the
window's end, strictly increasing, and every element lies in `[start, end)`. -/
theorem C3_first_window_slots (s : DB) (did : Nat) (day : String) (d : DoctorRow) (w : AvailRow)
    (hd : s.doctors.find? (fun x => x.doctorid == did && x.approval_status == "approved") = some d)
    (hw : s.avail.find? (fun r => r.doctorid == did && r.dayname == day) = some w)
    (_hlt : w.starttime < w.endtime) :
    get_doctor_availability s did day = genSlots w.starttime w.endtime ∧
    (∀ t, t ∈ get_doctor_availability s did day ↔
       ∃ k, t = w.starttime + 30 * k ∧ t < w.endtime) ∧
    List.Sorted (· < ·) (get_doctor_availability s did day) ∧
    (∀ t ∈ get_doctor_availability s did day, w.starttime ≤ t ∧ t < w.endtime) := by
  have hres : get_doctor_availability s did day = genSlots w.starttime w.endtime := by
    simp [get_doctor_availability, hd, hw]
  refine ⟨hres, ?_, ?_, ?_⟩
  · intro t
    rw [hres]
    exact genSlots_mem _ _ t
  · rw [hres]
    exact genSlots_sorted _ _
  · intro t ht
    rw [hres] at ht
    rcases (genSlots_mem _ _ _).mp ht with ⟨k, rfl, hk⟩
    omega

/-- C3 witness: the amended theorem applied to the single-window store. -/
theorem C3_first_window_slots_witness :
    dbC3w.doctors.find? (fun x => x.doctorid == 1 && x.approval_status == "approved") =
      some { doctorid := 1, name := "Dr. Alice Smith", speciality := "Cardiology",
             hospitalid := 1, approval_status := "approved" } ∧
    dbC3w.avail.find? (fun r => r.doctorid == 1 && r.dayname == "Mon") =
      some ⟨"Mon", 1, 540, 720⟩ ∧
    (540 : Nat) < 720 ∧
    get_doctor_availability dbC3w 1 "Mon" = genSlots 540 720 ∧
    List.Sorted (· < ·) (get_doctor_availability dbC3w 1 "Mon") :=
  ⟨by decide, by decide, by decide,
   (C3_first_window_slots dbC3w 1 "Mon"
      { doctorid := 1, name := "Dr. Alice Smith", speciality := "Cardiology",
        hospitalid := 1, approval_status := "approved" } ⟨"Mon", 1, 540, 720⟩
      (by decide) (by decide) (by decide)).1,
   (C3_first_window_slots dbC3w 1 "Mon"
      { doctorid := 1, name := "Dr. Alice Smith", speciality := "Cardiology",
        hospitalid := 1, approval_status := "approved" } ⟨"Mon", 1, 540, 720⟩
      (by decide) (by decide) (by decide)).2.2.1⟩

/-- C4 counterexample: the claim says `book` never creates a scheduled
appointment for a non-approved provider nor outside the generated slots.
Doctor 2 is `pending`, so its generated slot list is empty for every day
(here shown for "Mon", its only configured weekday), yet booking (user 1,
doctor 2, date 100, time 900) succeeds and creates a scheduled row. -/
theorem C4_books_for_unapproved_provider :
    (findDoctor dbC4cex 2).map DoctorRow.approval_status = some "pending" ∧
    get_doctor_availability dbC4cex 2 "Mon" = [] ∧
    dbC4cex.avail = [⟨"Mon", 2, 540, 720⟩] ∧
    (create_appointment dbC4cex 1 2 100 900 none 0).1 =
      BookResult.created { appointmentid := 1, userid := 1, doctorid := 2, status := true,
                           appointment_date := 100, appointment_time := 900,
                           reason := "Unstated", created_at := 0 } := by
  decide

/-- C4 amended: the booking path validates **only** that the patient and the
provider exist (plus request formats upstream); whenever it creates an
appointment, the referenced user and doctor are present, the row is
scheduled with exactly the requested triple, and it is stored — no
approval-status or slot-membership condition is part of this guarantee. -/
theorem C4_book_checks_existence_only (s : DB) (uid did dte tme : Nat)
    (reason : Option String) (now : Nat) (a : Appt)
    (h : (create_appointment s uid did dte tme reason now).1 = BookResult.created a) :
    uid ∈ s.users ∧ (findDoctor s did).isSome ∧
    a.status = true ∧ a.userid = uid ∧ a.doctorid = did ∧
    a.appointment_date = dte ∧ a.appointment_time = tme ∧
    a ∈ (create_appointment s uid did dte tme reason now).2.appointments := by
  unfold create_appointment at h ⊢
  by_cases hg : (!(s.users.contains uid) || (findDoctor s did).isNone) = true
  · rw [if_pos hg] at h
    exact absurd h (by simp)
  · rw [if_neg hg] at h ⊢
    have hmem : uid ∈ s.users ∧ (findDoctor s did).isSome := by
      simp only [Bool.or_eq_true, Bool.not_eq_true', not_or, Bool.not_eq_false] at hg
      rcases hg with ⟨h1, h2⟩
      refine ⟨?_, ?_⟩
      · simpa using h1
      · simpa [Option.isNone_iff_eq_none, Option.isSome_iff_ne_none] using h2
    by_cases hc : violatesUqDoctorSlot s did dte tme = true
    · rw [if_pos hc] at h
      exact absurd h (by simp)
    · rw [if_neg hc] at h ⊢
      simp only [BookResult.created.injEq] at h
      subst h
      exact ⟨hmem.1, hmem.2, rfl, rfl, rfl, rfl, rfl, by simp⟩

/-- C4 witness: the amended theorem at the concrete booking of the pending
doctor's off-slot time. -/
theorem C4_book_checks_existence_only_witness :
    (create_appointment dbC4cex 1 2 100 900 none 0).1 =
      BookResult.created { appointmentid := 1, userid := 1, doctorid := 2, status := true,
                           appointment_date := 100, appointment_time := 900,
                           reason := "Unstated", created_at := 0 } ∧
    1 ∈ dbC4cex.users ∧ (findDoctor dbC4cex 2).isSome ∧
    ({ appointmentid := 1, userid := 1, doctorid := 2, status := true,
       appointment_date := 100, appointment_time := 900,
       reason := "Unstated", created_at := 0 } : Appt) ∈
      (create_appointment dbC4cex 1 2 100 900 none 0).2.appointments :=
  ⟨by decide,
   (C4_book_checks_existence_only dbC4cex 1 2 100 900 none 0
      { appointmentid := 1, userid := 1, doctorid := 2, status := true,
        appointment_date := 100, appointment_time := 900,
        reason := "Unstated", created_at := 0 } (by decide)).1,
   (C4_book_checks_existence_only dbC4cex 1 2 100 900 none 0
      { appointmentid := 1, userid := 1, doctorid := 2, status := true,
        appointment_date := 100, appointment_time := 900,
        reason := "Unstated", created_at := 0 } (by decide)).2.1,
   (C4_book_checks_existence_only dbC4cex 1 2 100 900 none 0
      { appointmentid := 1, userid := 1, doctorid := 2, status := true,
        appointment_date := 100, appointment_time := 900,
        reason := "Unstated", created_at := 0 } (by decide)).2.2.2.2.2.2.2⟩

/-- C9: on exactly the two windows Mon 09:00–12:00 and Wed 09:00–12:00
(in either input order) the compactor merges the identical ranges into one
Mon-first segment and renders the quoted 12-hour string. -/
theorem C9_summary_concrete :
    summarize_availability [⟨"Mon", 540, 720⟩, ⟨"Wed", 540, 720⟩] =
      some "Mon, Wed: 9:00 AM - 12:00 PM" ∧
    summarize_availability [⟨"Wed", 540, 720⟩, ⟨"Mon", 540, 720⟩] =
      some "Mon, Wed: 9:00 AM - 12:00 PM" := by
  decide

/-- C6 counterexample: permutation invariance fails when two buckets share
the earliest-day sort key.  The two Monday ranges sort with equal keys, so
Python's stable sort keeps them in first-occurrence order and the two
permutations render different strings. -/
theorem C6_permutation_changes_summary :
    List.Perm [(⟨"Mon", 540, 720⟩ : Block), ⟨"Mon", 780, 1020⟩]
      [⟨"Mon", 780, 1020⟩, ⟨"Mon", 540, 720⟩] ∧
    summarize_availability [(⟨"Mon", 540, 720⟩ : Block), ⟨"Mon", 780, 1020⟩] =
      some "Mon: 9:00 AM - 12:00 PM | Mon: 1:00 PM - 5:00 PM" ∧
    summarize_availability [(⟨"Mon", 780, 1020⟩ : Block), ⟨"Mon", 540, 720⟩] =
      some "Mon: 1:00 PM - 5:00 PM | Mon: 9:00 AM - 12:00 PM" ∧
    summarize_availability [(⟨"Mon", 540, 720⟩ : Block), ⟨"Mon", 780, 1020⟩] ≠
      summarize_availability [(⟨"Mon", 780, 1020⟩ : Block), ⟨"Mon", 540, 720⟩] := by
  decide

/-- C5: a provider whose approval state is not `approved` (pending, rejected
or suspended) is invisible on the whole read path: it never appears in the
listing, its detail lookup is the 404 branch, and its slot query is empty
for every date regardless of configured windows.  (`doctorid` is the
primary key, hence the `Nodup` hypothesis.) -/
theorem C5_nonapproved_invisible (s : DB) (d : DoctorRow)
    (hpk : (s.doctors.map DoctorRow.doctorid).Nodup)
    (hmem : d ∈ s.doctors) (hna : d.approval_status ≠ "approved") :
    (∀ e ∈ get_doctors s, e.1 ≠ d) ∧
    get_doctor_detail s d.doctorid = none ∧
    (∀ day, get_doctor_availability s d.doctorid day = []) := by
  have hinj := List.inj_on_of_nodup_map hpk
  have hfind : s.doctors.find?
      (fun x => x.doctorid == d.doctorid && x.approval_status == "approved") = none := by
    rw [List.find?_eq_none]
    intro x hx
    simp only [Bool.and_eq_true, beq_iff_eq, not_and]
    intro hid
    have hxd : x = d := hinj hx hmem hid
    rw [hxd]
    exact hna
  refine ⟨?_, ?_, ?_⟩
  · intro e he heq
    unfold get_doctors at he
    rcases List.mem_filterMap.mp he with ⟨x, _, hfx⟩
    by_cases hap : (x.approval_status == "approved") = true
    · rw [if_pos hap] at hfx
      rcases Option.map_eq_some'.mp hfx with ⟨h, _, rfl⟩
      have heq' : x = d := heq
      rw [heq'] at hap
      exact hna (by simpa using hap)
    · rw [if_neg hap] at hfx
      exact Option.noConfusion hfx
  · unfold get_doctor_detail
    rw [hfind]
  · intro day
    unfold get_doctor_availability
    rw [hfind]

/-- C5 witness: the rejected doctor 3 of `dbC5w` is invisible although it
has a Thursday window. -/
theorem C5_nonapproved_invisible_witness :
    (dbC5w.doctors.map DoctorRow.doctorid).Nodup ∧
    ({ doctorid := 3, name := "Dr. Carol Jones", speciality := "Neurology",
       hospitalid := 1, approval_status := "rejected" } : DoctorRow) ∈ dbC5w.doctors ∧
    dbC5w.avail ≠ [] ∧
    ((∀ e ∈ get_doctors dbC5w, e.1 ≠
        ({ doctorid := 3, name := "Dr. Carol Jones", speciality := "Neurology",
           hospitalid := 1, approval_status := "rejected" } : DoctorRow)) ∧
     get_doctor_detail dbC5w 3 = none ∧
     (∀ day, get_doctor_availability dbC5w 3 day = [])) :=
  ⟨by decide, by decide, by decide,
   C5_nonapproved_invisible dbC5w
     { doctorid := 3, name := "Dr. Carol Jones", speciality := "Neurology",
       hospitalid := 1, approval_status := "rejected" }
     (by decide) (by decide) (by decide)⟩

/-- After cancelling `aid`, looking the id up again finds the same row with
`status` flipped to `False` (the cancel update maps over rows with this id). -/
theorem find_after_cancel_map (l : List Appt) (aid : Nat) :
    (l.map (fun x => if x.appointmentid == aid then { x with status := false } else x)).find?
        (fun a => a.appointmentid == aid) =
      (l.find? (fun a => a.appointmentid == aid)).map
        (fun x => { x with status := false }) := by
  induction l with
  | nil => rfl
  | cons a t ih =>
    simp only [List.map_cons, List.find?_cons]
    by_cases h : (a.appointmentid == aid) = true
    · rw [if_pos h]
      have hx : (({ a with status := false } : Appt).appointmentid == aid) = true := h
      rw [hx]
      rfl
    · rw [if_neg h]
      have hx : (a.appointmentid == aid) = false := by simpa using h
      rw [hx]
      exact ih

/-- C7: the cancel operation's full result taxonomy — 404 when the id is
absent, 400 `AlreadyCancelled` (not success) when the row is already
cancelled, and otherwise 200 with the row flipped from scheduled to
cancelled; re-cancelling is thus an error by design. -/
theorem C7_cancel_result_taxonomy (s : DB) (aid : Nat) :
    (findAppt s aid = none →
      cancel_appointment s aid = (CancelResult.notFound, s) ∧
      cancelHttpStatus (cancel_appointment s aid).1 = 404) ∧
    (∀ a, findAppt s aid = some a → a.status = false →
      cancel_appointment s aid = (CancelResult.alreadyCancelled, s) ∧
      cancelHttpStatus (cancel_appointment s aid).1 = 400) ∧
    (∀ a, findAppt s aid = some a → a.status = true →
      (cancel_appointment s aid).1 = CancelResult.ok aid false ∧
      cancelHttpStatus (cancel_appointment s aid).1 = 200 ∧
      findAppt (cancel_appointment s aid).2 aid = some { a with status := false }) := by
  refine ⟨?_, ?_, ?_⟩
  · intro h
    unfold cancel_appointment
    rw [h]
    exact ⟨rfl, rfl⟩
  · intro a ha hst
    have hpair : cancel_appointment s aid = (CancelResult.alreadyCancelled, s) := by
      unfold cancel_appointment
      rw [ha]
      simp [hst]
    rw [hpair]
    exact ⟨rfl, rfl⟩
  · intro a ha hst
    have hpair : cancel_appointment s aid = (CancelResult.ok aid false,
        { s with appointments := s.appointments.map (fun x =>
            if x.appointmentid == aid then { x with status := false } else x) }) := by
      unfold cancel_appointment
      rw [ha]
      simp [hst]
    rw [hpair]
    refine ⟨rfl, rfl, ?_⟩
    unfold findAppt at ha ⊢
    rw [find_after_cancel_map, ha]
    rfl

/-- C7 witness: on `dbC7w`, cancelling absent id 3 is 404, re-cancelling the
cancelled appointment 2 is 400 `AlreadyCancelled`, and cancelling the
scheduled appointment 1 is 200 and flips it. -/
theorem C7_cancel_result_taxonomy_witness :
    (cancel_appointment dbC7w 3 = (CancelResult.notFound, dbC7w) ∧
     cancelHttpStatus (cancel_appointment dbC7w 3).1 = 404) ∧
    (cancel_appointment dbC7w 2 = (CancelResult.alreadyCancelled, dbC7w) ∧
     cancelHttpStatus (cancel_appointment dbC7w 2).1 = 400) ∧
    ((cancel_appointment dbC7w 1).1 = CancelResult.ok 1 false ∧
     cancelHttpStatus (cancel_appointment dbC7w 1).1 = 200 ∧
     findAppt (cancel_appointment dbC7w 1).2 1 =
       some { appointmentid := 1, userid := 1, doctorid := 1, status := false,
              appointment_date := 100, appointment_time := 540,
              reason := "checkup", created_at := 0 }) :=
  ⟨(C7_cancel_result_taxonomy dbC7w 3).1 (by decide),
   (C7_cancel_result_taxonomy dbC7w 2).2.1
     { appointmentid := 2, userid := 1, doctorid := 1, status := false,
       appointment_date := 101, appointment_time := 600,
       reason := "Unstated", created_at := 0 } (by decide) (by decide),
   (C7_cancel_result_taxonomy dbC7w 1).2.2
     { appointmentid := 1, userid := 1, doctorid := 1, status := true,
       appointment_date := 100, appointment_time := 540,
       reason := "checkup", created_at := 0 } (by decide) (by decide)⟩

/-! ## Rating rounding lemmas -/

/-- Python's banker's rounding lands within half a unit of its argument. -/
theorem roundHalfEven_dist (x : ℚ) : |(roundHalfEven x : ℚ) - x| ≤ 1/2 := by
  have key : (⌊x⌋ : ℚ) + Int.fract x = x := Int.floor_add_fract x
  have h0 : 0 ≤ Int.fract x := Int.fract_nonneg x
  have h1 : Int.fract x < 1 := Int.fract_lt_one x
  have hc : ((⌊x⌋ + 1 : ℤ) : ℚ) = (⌊x⌋ : ℚ) + 1 := by
    push_cast
    ring
  unfold roundHalfEven
  split_ifs with hlt hgt hev
  · rw [abs_le]
    constructor <;> linarith
  · rw [abs_le, hc]
    constructor <;> linarith
  · have heq : Int.fract x = 1/2 := le_antisymm (not_lt.mp hgt) (not_lt.mp hlt)
    rw [abs_le]
    constructor <;> linarith
  · have heq : Int.fract x = 1/2 := le_antisymm (not_lt.mp hgt) (not_lt.mp hlt)
    rw [abs_le, hc]
    constructor <;> linarith

/-- The stored score is within a quarter star of the submitted score —
`round(q*2)/2` is a nearest multiple of 0.5. -/
theorem normalizeScore_dist (q : ℚ) : |normalizeScore q - q| ≤ 1/4 := by
  have h := roundHalfEven_dist (q * 2)
  have h2 : normalizeScore q - q = ((roundHalfEven (q * 2) : ℚ) - q * 2) / 2 := by
    unfold normalizeScore
    ring
  rw [h2, abs_div, abs_of_pos (by norm_num : (0:ℚ) < 2)]
  linarith

/-- C8: on a ratable appointment (present, scheduled, strictly past), a
non-numeric score is rejected, a score outside `[1, 5]` is rejected before
any clamping, and an accepted score is stored as `round(2q)/2` — a multiple
of one half within a quarter of the submitted value. -/
theorem C8_rating_validation_and_rounding (s : DB) (aid today now : Nat) (appt : Appt)
    (comment : Option String)
    (hfind : findAppt s aid = some appt) (hst : appt.status = true)
    (hpast : appt.appointment_date < today) :
    rate_appointment s aid today RatingField.nonNumeric comment now =
      (RateResult.badRequest "rating must be a number", s) ∧
    (∀ q : ℚ, q < 1 ∨ 5 < q →
      rate_appointment s aid today (RatingField.num q) comment now =
        (RateResult.badRequest "rating must be between 1 and 5", s)) ∧
    (∀ q : ℚ, 1 ≤ q → q ≤ 5 →
      (rate_appointment s aid today (RatingField.num q) comment now).1 =
        RateResult.ok
          (if (s.reviews.find? (fun r => r.appointmentid == aid)).isSome
           then "updated" else "created")
          (normalizeScore q) ∧
      (∃ r ∈ (rate_appointment s aid today (RatingField.num q) comment now).2.reviews,
         r.appointmentid = aid ∧ r.rating = normalizeScore q) ∧
      |normalizeScore q - q| ≤ 1/4 ∧
      (∃ k : ℤ, normalizeScore q = (k : ℚ) / 2)) := by
  have hdate : ¬ (today ≤ appt.appointment_date) := by omega
  refine ⟨?_, ?_, ?_⟩
  · unfold rate_appointment
    rw [hfind]
    simp [hst, hdate]
  · intro q hq
    unfold rate_appointment
    rw [hfind]
    simp [hst, hdate, hq]
  · intro q h1 h5
    have hq : ¬ (q < 1 ∨ 5 < q) := by
      rw [not_or]
      exact ⟨not_lt.mpr h1, not_lt.mpr h5⟩
    by_cases hex : (s.reviews.find? (fun r => r.appointmentid == aid)).isSome = true
    · rcases Option.isSome_iff_exists.mp hex with ⟨r0, hr0⟩
      have hr0mem : r0 ∈ s.reviews := List.mem_of_find?_eq_some hr0
      have hr0id : (r0.appointmentid == aid) = true := by
        simpa using List.find?_some hr0
      have hres : rate_appointment s aid today (RatingField.num q) comment now =
          (RateResult.ok "updated" (normalizeScore q),
           { s with reviews := s.reviews.map (fun r =>
               if r.appointmentid == aid then
                 { r with
                     rating := normalizeScore q,
                     comments := normalizeComment comment,
                     created_at := now }
               else r) }) := by
        unfold rate_appointment
        rw [hfind]
        simp [hst, hdate, hq, hex]
      rw [hres, if_pos hex]
      refine ⟨rfl, ?_, normalizeScore_dist q, ⟨roundHalfEven (q * 2), rfl⟩⟩
      refine ⟨{ r0 with
                  rating := normalizeScore q,
                  comments := normalizeComment comment,
                  created_at := now }, ?_, ?_, rfl⟩
      · refine List.mem_map.mpr ⟨r0, hr0mem, ?_⟩
        simp [hr0id]
      · simpa using hr0id
    · have hres : rate_appointment s aid today (RatingField.num q) comment now =
          (RateResult.ok "created" (normalizeScore q),
           { s with
               reviews := s.reviews ++
                 [{ reviewid := s.nextReviewId,
                    doctorid := appt.doctorid,
                    userid := appt.userid,
                    appointmentid := aid,
                    rating := normalizeScore q,
                    comments := normalizeComment comment,
                    created_at := now }],
               nextReviewId := s.nextReviewId + 1 }) := by
        unfold rate_appointment
        rw [hfind]
        simp [hst, hdate, hq, hex]
      rw [hres, if_neg hex]
      refine ⟨rfl, ?_, normalizeScore_dist q, ⟨roundHalfEven (q * 2), rfl⟩⟩
      exact ⟨{ reviewid := s.nextReviewId,
               doctorid := appt.doctorid,
               userid := appt.userid,
               appointmentid := aid,
               rating := normalizeScore q,
               comments := normalizeComment comment,
               created_at := now }, by simp, rfl, rfl⟩

/-- C8 witness: on the past scheduled appointment of `dbC8w` at
`today = 200`, a non-numeric rating and the out-of-range 0.2 are rejected,
and 4.3 is accepted and stored as 4.5. -/
theorem C8_rating_validation_and_rounding_witness :
    rate_appointment dbC8w 1 200 RatingField.nonNumeric none 50 =
      (RateResult.badRequest "rating must be a number", dbC8w) ∧
    rate_appointment dbC8w 1 200 (RatingField.num (1/5)) none 50 =
      (RateResult.badRequest "rating must be between 1 and 5", dbC8w) ∧
    (rate_appointment dbC8w 1 200 (RatingField.num (43/10)) none 50).1 =
      RateResult.ok "created" (normalizeScore (43/10)) ∧
    normalizeScore ((43 : ℚ)/10) = 9/2 ∧
    |normalizeScore ((43 : ℚ)/10) - 43/10| ≤ 1/4 := by
  have happt : findAppt dbC8w 1 =
      some { appointmentid := 1, userid := 1, doctorid := 1, status := true,
             appointment_date := 100, appointment_time := 540,
             reason := "visit", created_at := 0 } := by decide
  have h := C8_rating_validation_and_rounding dbC8w 1 200 50
    { appointmentid := 1, userid := 1, doctorid := 1, status := true,
      appointment_date := 100, appointment_time := 540,
      reason := "visit", created_at := 0 } none happt (by decide) (by decide)
  refine ⟨h.1, h.2.1 (1/5) (Or.inl (by norm_num)), ?_, ?_, h.2.2 (43/10) (by norm_num) (by norm_num) |>.2.2.1⟩
  · have h3 := (h.2.2 (43/10) (by norm_num) (by norm_num)).1
    simpa using h3
  · norm_num [normalizeScore, roundHalfEven, Int.fract]

/-- C10: a successful cancel changes only the status of the targeted
appointment row — every other table, the id counters, all other appointment
rows and all stored ratings are untouched, so the per-provider review
aggregates are identical before and after. -/
theorem C10_cancel_frame (s : DB) (aid : Nat) (a : Appt)
    (hfind : findAppt s aid = some a) (hst : a.status = true) :
    (cancel_appointment s aid).2.users = s.users ∧
    (cancel_appointment s aid).2.hospitals = s.hospitals ∧
    (cancel_appointment s aid).2.doctors = s.doctors ∧
    (cancel_appointment s aid).2.avail = s.avail ∧
    (cancel_appointment s aid).2.reviews = s.reviews ∧
    (cancel_appointment s aid).2.nextApptId = s.nextApptId ∧
    (cancel_appointment s aid).2.nextReviewId = s.nextReviewId ∧
    (cancel_appointment s aid).2.appointments =
      s.appointments.map (fun x =>
        if x.appointmentid == aid then { x with status := false } else x) ∧
    (∀ x ∈ s.appointments, x.appointmentid ≠ aid →
      x ∈ (cancel_appointment s aid).2.appointments) ∧
    (∀ x ∈ (cancel_appointment s aid).2.appointments, ∃ y ∈ s.appointments,
      x.appointmentid = y.appointmentid ∧ x.userid = y.userid ∧
      x.doctorid = y.doctorid ∧ x.appointment_date = y.appointment_date ∧
      x.appointment_time = y.appointment_time ∧ x.reason = y.reason ∧
      x.created_at = y.created_at) ∧
    (∀ did, get_review_aggregates (cancel_appointment s aid).2 did =
      get_review_aggregates s did) := by
  have hs : (cancel_appointment s aid).2 =
      { s with appointments := s.appointments.map (fun x =>
          if x.appointmentid == aid then { x with status := false } else x) } := by
    unfold cancel_appointment
    rw [hfind]
    simp [hst]
  rw [hs]
  refine ⟨rfl, rfl, rfl, rfl, rfl, rfl, rfl, rfl, ?_, ?_, fun _ => rfl⟩
  · intro x hx hne
    have hxb : (x.appointmentid == aid) = false := beq_eq_false_iff_ne.mpr hne
    have := List.mem_map_of_mem (fun x =>
      if x.appointmentid == aid then { x with status := false } else x) hx
    simpa [hxb] using this
  · intro x hx
    rcases List.mem_map.mp hx with ⟨y, hy, rfl⟩
    by_cases hyb : (y.appointmentid == aid) = true
    · exact ⟨y, hy, by simp [hyb]⟩
    · exact ⟨y, hy, by simp [hyb]⟩

/-- C10 witness: cancelling appointment 1 of `dbC10w` leaves the review
table, the aggregates, and the untouched appointment 2 intact. -/
theorem C10_cancel_frame_witness :
    findAppt dbC10w 1 =
      some { appointmentid := 1, userid := 1, doctorid := 1, status := true,
             appointment_date := 100, appointment_time := 540,
             reason := "checkup", created_at := 0 } ∧
    (cancel_appointment dbC10w 1).2.reviews = dbC10w.reviews ∧
    (∀ x ∈ dbC10w.appointments, x.appointmentid ≠ 1 →
      x ∈ (cancel_appointment dbC10w 1).2.appointments) ∧
    (∀ did, get_review_aggregates (cancel_appointment dbC10w 1).2 did =
      get_review_aggregates dbC10w did) := by
  have happt : findAppt dbC10w 1 =
      some { appointmentid := 1, userid := 1, doctorid := 1, status := true,
             appointment_date := 100, appointment_time := 540,
             reason := "checkup", created_at := 0 } := by decide
  have h := C10_cancel_frame dbC10w 1
    { appointmentid := 1, userid := 1, doctorid := 1, status := true,
      appointment_date := 100, appointment_time := 540,
      reason := "checkup", created_at := 0 } happt (by decide)
  exact ⟨happt, h.2.2.2.2.1, h.2.2.2.2.2.2.2.2.1, h.2.2.2.2.2.2.2.2.2.2⟩

/-! ## Summary compactor: permutation analysis -/

/-- Membership through the dedup fold, generalized over the accumulator. -/
theorem dedupFirst_loop_mem {α : Type} [DecidableEq α] (l : List α) (acc : List α) (x : α) :
    x ∈ l.foldl (fun acc d => if d ∈ acc then acc else acc ++ [d]) acc ↔
      x ∈ acc ∨ x ∈ l := by
  induction l generalizing acc with
  | nil => simp
  | cons a t ih =>
    simp only [List.foldl_cons]
    by_cases h : a ∈ acc
    · rw [if_pos h, ih]
      simp only [List.mem_cons]
      constructor
      · rintro (hx | hx)
        · exact Or.inl hx
        · exact Or.inr (Or.inr hx)
      · rintro (hx | rfl | hx)
        · exact Or.inl hx
        · exact Or.inl h
        · exact Or.inr hx
    · rw [if_neg h, ih]
      simp only [List.mem_append, List.mem_singleton, List.mem_cons]
      tauto

/-- `dedupFirst` keeps exactly the members of its input. -/
theorem dedupFirst_mem {α : Type} [DecidableEq α] (l : List α) (x : α) :
    x ∈ dedupFirst l ↔ x ∈ l := by
  unfold dedupFirst
  rw [dedupFirst_loop_mem]
  simp

/-- The dedup fold preserves `Nodup` of the accumulator. -/
theorem dedupFirst_loop_nodup {α : Type} [DecidableEq α] (l : List α) (acc : List α)
    (h : acc.Nodup) :
    (l.foldl (fun acc d => if d ∈ acc then acc else acc ++ [d]) acc).Nodup := by
  induction l generalizing acc with
  | nil => simpa using h
  | cons a t ih =>
    simp only [List.foldl_cons]
    by_cases ha : a ∈ acc
    · rw [if_pos ha]
      exact ih acc h
    · rw [if_neg ha]
      refine ih _ ?_
      simp [List.nodup_append, h, ha]

/-- `dedupFirst` has no duplicates. -/
theorem dedupFirst_nodup {α : Type} [DecidableEq α] (l : List α) :
    (dedupFirst l).Nodup :=
  dedupFirst_loop_nodup l [] List.nodup_nil

/-- Appending one element to the input either leaves `dedupFirst` unchanged
(when already present) or appends it at the back. -/
theorem dedupFirst_append_singleton {α : Type} [DecidableEq α] (l : List α) (x : α) :
    dedupFirst (l ++ [x]) =
      if x ∈ l then dedupFirst l else dedupFirst l ++ [x] := by
  unfold dedupFirst
  rw [List.foldl_append]
  simp only [List.foldl_cons, List.foldl_nil]
  have hiff : x ∈ l.foldl (fun acc d => if d ∈ acc then acc else acc ++ [d]) [] ↔ x ∈ l := by
    rw [dedupFirst_loop_mem]
    simp
  by_cases h : x ∈ l
  · rw [if_pos h, if_pos (hiff.mpr h)]
  · rw [if_neg h, if_neg (fun hc => h (hiff.mp hc))]

/-- `dedupFirst` of permuted lists are permutations of each other. -/
theorem dedupFirst_perm_of_perm {α : Type} [DecidableEq α] {l l' : List α}
    (h : l.Perm l') : (dedupFirst l).Perm (dedupFirst l') := by
  rw [List.perm_ext_iff_of_nodup (dedupFirst_nodup l) (dedupFirst_nodup l')]
  intro a
  rw [dedupFirst_mem, dedupFirst_mem]
  exact h.mem_iff

/-- The day sort key is injective on the canonical weekday names. -/
theorem dayKey_inj {a b : String} (ha : a ∈ DAY_ORDER) (hb : b ∈ DAY_ORDER)
    (h : dayKey a = dayKey b) : a = b := by
  unfold dayKey at h
  rw [if_pos ha, if_pos hb] at h
  exact (List.indexOf_inj ha hb).mp h

/-- Two sorted duplicate-free lists of canonical day names that are
permutations of each other are equal (the sort key is injective there). -/
theorem sorted_nodup_canonical_eq (l1 : List String) :
    ∀ l2 : List String, l1.Perm l2 →
      l1.Sorted (fun a b => dayKey a ≤ dayKey b) →
      l2.Sorted (fun a b => dayKey a ≤ dayKey b) →
      l1.Nodup → (∀ a ∈ l1, a ∈ DAY_ORDER) → l1 = l2 := by
  induction l1 with
  | nil =>
    intro l2 hp _ _ _ _
    exact (List.Perm.nil_eq hp)
  | cons a t ih =>
    intro l2 hp hs1 hs2 hnd hcan
    cases l2 with
    | nil => exact absurd (List.Perm.eq_nil hp) (by simp)
    | cons b u =>
      by_cases hab : a = b
      · subst hab
        have ht : t.Perm u := hp.cons_inv
        have := ih u ht hs1.of_cons hs2.of_cons (List.Nodup.of_cons hnd)
          (fun x hx => hcan x (List.mem_cons_of_mem _ hx))
        rw [this]
      · have hain : a ∈ u := by
          have hm : a ∈ b :: u := hp.mem_iff.mp (List.mem_cons_self a t)
          rcases List.mem_cons.mp hm with h1 | h1
          · exact absurd h1 hab
          · exact h1
        have hbin : b ∈ t := by
          have hm : b ∈ a :: t := hp.mem_iff.mpr (List.mem_cons_self b u)
          rcases List.mem_cons.mp hm with h1 | h1
          · exact absurd h1.symm hab
          · exact h1
        have h1 : dayKey a ≤ dayKey b := List.rel_of_sorted_cons hs1 b hbin
        have h2 : dayKey b ≤ dayKey a := List.rel_of_sorted_cons hs2 a hain
        have hbcan : b ∈ DAY_ORDER := hcan b (List.mem_cons_of_mem _ hbin)
        exact absurd
          (dayKey_inj (hcan a (List.mem_cons_self a t)) hbcan (le_antisymm h1 h2)) hab

/-- `sortedDays` output is sorted by the day key. -/
theorem sortedDays_sorted (days : List String) :
    (sortedDays days).Sorted (fun a b => dayKey a ≤ dayKey b) :=
  List.sorted_insertionSort _ _

/-- `sortedDays` permutes the deduplicated input. -/
theorem sortedDays_perm (days : List String) :
    (sortedDays days).Perm (dedupFirst days) :=
  List.perm_insertionSort _ _

/-- `sortedDays` output has no duplicates. -/
theorem sortedDays_nodup (days : List String) : (sortedDays days).Nodup :=
  ((sortedDays_perm days).nodup_iff).mpr (dedupFirst_nodup days)

/-- For canonical day names, `sortedDays` is permutation-invariant. -/
theorem sortedDays_eq_of_perm {days days' : List String} (hp : days.Perm days')
    (hcan : ∀ d ∈ days, d ∈ DAY_ORDER) : sortedDays days = sortedDays days' := by
  apply sorted_nodup_canonical_eq
  · exact (sortedDays_perm days).trans
      ((dedupFirst_perm_of_perm hp).trans (sortedDays_perm days').symm)
  · exact sortedDays_sorted days
  · exact sortedDays_sorted days'
  · exact sortedDays_nodup days
  · intro a ha
    refine hcan a ?_
    exact (dedupFirst_mem days a).mp ((sortedDays_perm days).mem_iff.mp ha)

/-- The segment of a bucket depends on the bucket's days only through their
set; permuting canonical days does not change it. -/
theorem segmentOf_congr {k : Nat × Nat} {days days' : List String} (hp : days.Perm days')
    (hcan : ∀ d ∈ days, d ∈ DAY_ORDER) : segmentOf k days = segmentOf k days' := by
  unfold segmentOf
  rw [sortedDays_eq_of_perm hp hcan]

/-- Closed form of the bucket fold: one bucket per distinct range in order of
first occurrence, whose day list collects the days of the blocks with that
range, in input order. -/
theorem buckets_eq (l : List Block) :
    buckets l = (dedupFirst (l.map rangeOf)).map
      (fun k => (k, (l.filter (fun b => rangeOf b == k)).map Block.day)) := by
  induction l using List.reverseRecOn with
  | nil => rfl
  | append_singleton l b ih =>
    have hstep : buckets (l ++ [b]) = addBlock (buckets l) b := by
      unfold buckets
      rw [List.foldl_append]
      rfl
    rw [hstep, ih, List.map_append]
    simp only [List.map_cons, List.map_nil]
    rw [dedupFirst_append_singleton]
    unfold addBlock
    have hany : ((dedupFirst (l.map rangeOf)).map
        (fun k => (k, (l.filter (fun b => rangeOf b == k)).map Block.day))).any
          (fun e => e.1 == rangeOf b) =
        decide (rangeOf b ∈ l.map rangeOf) := by
      rcases Bool.eq_false_or_eq_true (decide (rangeOf b ∈ l.map rangeOf)) with hd | hd
      · rw [hd, List.any_eq_true]
        refine ⟨(rangeOf b, (l.filter (fun x => rangeOf x == rangeOf b)).map Block.day),
          ?_, by simp⟩
        exact List.mem_map_of_mem _ ((dedupFirst_mem _ _).mpr (of_decide_eq_true hd))
      · rw [hd, List.any_eq_false]
        intro e he
        rcases List.mem_map.mp he with ⟨k, hk, rfl⟩
        have hnot : rangeOf b ∉ l.map rangeOf := of_decide_eq_false hd
        simp only [beq_iff_eq]
        intro hc
        exact hnot (hc ▸ (dedupFirst_mem _ _).mp hk)
    by_cases hmem : rangeOf b ∈ l.map rangeOf
    · rw [if_pos hmem]
      rw [if_pos (by rw [hany]; exact decide_eq_true hmem)]
      rw [List.map_map]
      apply List.map_congr_left
      intro k _
      simp only [Function.comp]
      rw [List.filter_append]
      by_cases hk : k = rangeOf b
      · subst hk
        rw [if_pos (by simp)]
        simp [List.map_append]
      · rw [if_neg (by simpa using fun hc => hk hc)]
        have : List.filter (fun x => rangeOf x == k) [b] = [] := by
          simp only [List.filter_cons, List.filter_nil]
          rw [if_neg (by simpa using fun hc => hk hc.symm)]
        rw [this]
        simp
    · rw [if_neg hmem]
      rw [if_neg (by rw [hany]; simp [hmem])]
      rw [List.map_append]
      congr 1
      · apply List.map_congr_left
        intro k hk
        have hkmem : k ∈ l.map rangeOf := (dedupFirst_mem _ _).mp hk
        have hkne : k ≠ rangeOf b := fun hc => hmem (hc ▸ hkmem)
        rw [List.filter_append]
        have : List.filter (fun x => rangeOf x == k) [b] = [] := by
          simp only [List.filter_cons, List.filter_nil]
          rw [if_neg (by simpa using fun hc => hkne hc.symm)]
        rw [this]
        simp
      · simp only [List.map_cons, List.map_nil]
        have : List.filter (fun x => rangeOf x == rangeOf b) (l ++ [b]) = [b] := by
          rw [List.filter_append]
          have h1 : List.filter (fun x => rangeOf x == rangeOf b) l = [] := by
            rw [List.filter_eq_nil_iff]
            intro x hx hc
            exact hmem (beq_iff_eq.mp hc ▸ List.mem_map_of_mem rangeOf hx)
          have h2 : List.filter (fun x => rangeOf x == rangeOf b) [b] = [b] := by
            simp
          rw [h1, h2, List.nil_append]
        rw [this]
        rfl

/-- `segments` in closed form over the distinct ranges. -/
theorem segments_eq (l : List Block) :
    segments l = (dedupFirst (l.map rangeOf)).map
      (fun k => segmentOf k ((l.filter (fun b => rangeOf b == k)).map Block.day)) := by
  rw [segments, buckets_eq, List.map_map]
  rfl

/-- With canonical day names, permuting the blocks permutes the segments. -/
theorem segments_perm {l l' : List Block} (hp : l.Perm l')
    (hcan : ∀ b ∈ l, b.day ∈ DAY_ORDER) : (segments l).Perm (segments l') := by
  rw [segments_eq l, segments_eq l']
  have hfun : ∀ k ∈ dedupFirst (l'.map rangeOf),
      segmentOf k ((l'.filter (fun b => rangeOf b == k)).map Block.day) =
      segmentOf k ((l.filter (fun b => rangeOf b == k)).map Block.day) := by
    intro k _
    apply segmentOf_congr
    · exact (((hp.filter _).map _)).symm
    · intro d hd
      rcases List.mem_map.mp hd with ⟨x, hx, rfl⟩
      exact hcan x (hp.mem_iff.mpr (List.mem_of_mem_filter hx))
  rw [List.map_congr_left hfun]
  exact (dedupFirst_perm_of_perm (hp.map rangeOf)).map _

/-- Two sorted permutations of the same segment list with pairwise-distinct
keys are equal. -/
theorem sorted_nodup_keys_eq (l1 : List (Nat × String)) :
    ∀ l2 : List (Nat × String), l1.Perm l2 →
      l1.Sorted (fun a b => a.1 ≤ b.1) → l2.Sorted (fun a b => a.1 ≤ b.1) →
      (l1.map Prod.fst).Nodup → l1 = l2 := by
  induction l1 with
  | nil =>
    intro l2 hp _ _ _
    exact (List.Perm.nil_eq hp)
  | cons a t ih =>
    intro l2 hp hs1 hs2 hnd
    cases l2 with
    | nil => exact absurd (List.Perm.eq_nil hp) (by simp)
    | cons b u =>
      by_cases hab : a = b
      · subst hab
        have ht : t.Perm u := hp.cons_inv
        have := ih u ht hs1.of_cons hs2.of_cons (by simpa using (List.nodup_cons.mp (by simpa using hnd)).2)
        rw [this]
      · have hain : a ∈ u := by
          have hm : a ∈ b :: u := hp.mem_iff.mp (List.mem_cons_self a t)
          rcases List.mem_cons.mp hm with h1 | h1
          · exact absurd h1 hab
          · exact h1
        have hbin : b ∈ t := by
          have hm : b ∈ a :: t := hp.mem_iff.mpr (List.mem_cons_self b u)
          rcases List.mem_cons.mp hm with h1 | h1
          · exact absurd h1.symm hab
          · exact h1
        have h1 : a.1 ≤ b.1 := List.rel_of_sorted_cons hs1 b hbin
        have h2 : b.1 ≤ a.1 := List.rel_of_sorted_cons hs2 a hain
        have hk : a.1 = b.1 := le_antisymm h1 h2
        have : a.1 ∉ t.map Prod.fst := (List.nodup_cons.mp (by simpa using hnd)).1
        exact absurd (hk ▸ List.mem_map_of_mem Prod.fst hbin) this

/-- C6 amended: the summary is invariant under permutation of the input rows
whenever the day names are canonical and no two segments share the
earliest-day sort key (the counterexample shows the key-collision case is
genuinely order-dependent: Python's stable sort keeps equal-key segments in
first-occurrence order). -/
theorem C6_summary_perm_invariant (l l' : List Block) (hp : l.Perm l')
    (hcan : ∀ b ∈ l, b.day ∈ DAY_ORDER)
    (hkeys : ((segments l).map Prod.fst).Nodup) :
    summarize_availability l = summarize_availability l' := by
  unfold summarize_availability
  by_cases hemp : l.isEmpty = true
  · have hl : l = [] := by simpa using hemp
    have hl' : l' = [] := List.Perm.eq_nil ((hl ▸ hp).symm)
    rw [hl, hl']
  · have hemp' : ¬ (l'.isEmpty = true) := by
      intro hc
      apply hemp
      have hl' : l' = [] := by simpa using hc
      have : l = [] := List.Perm.eq_nil (hl' ▸ hp)
      simp [this]
    rw [if_neg hemp, if_neg hemp']
    have hsp : (segments l).Perm (segments l') := segments_perm hp hcan
    have h1 : (List.insertionSort (fun a b => a.1 ≤ b.1) (segments l)).Perm
        (List.insertionSort (fun a b => a.1 ≤ b.1) (segments l')) :=
      (List.perm_insertionSort _ _).trans (hsp.trans (List.perm_insertionSort _ _).symm)
    have hnd : ((List.insertionSort (fun a b => a.1 ≤ b.1) (segments l)).map Prod.fst).Nodup :=
      (((List.perm_insertionSort _ _).map Prod.fst).nodup_iff).mpr hkeys
    have heq : List.insertionSort (fun a b => a.1 ≤ b.1) (segments l) =
        List.insertionSort (fun a b => a.1 ≤ b.1) (segments l') :=
      sorted_nodup_keys_eq _ _ h1 (List.sorted_insertionSort _ _)
        (List.sorted_insertionSort _ _) hnd
    rw [heq]

/-- C6 witness: two canonical-day rows with distinct earliest-day keys —
the summary agrees on both orders. -/
theorem C6_summary_perm_invariant_witness :
    List.Perm [(⟨"Mon", 540, 720⟩ : Block), ⟨"Tue", 780, 1020⟩]
      [⟨"Tue", 780, 1020⟩, ⟨"Mon", 540, 720⟩] ∧
    (∀ b ∈ [(⟨"Mon", 540, 720⟩ : Block), ⟨"Tue", 780, 1020⟩], b.day ∈ DAY_ORDER) ∧
    ((segments [(⟨"Mon", 540, 720⟩ : Block), ⟨"Tue", 780, 1020⟩]).map Prod.fst).Nodup ∧
    summarize_availability [(⟨"Mon", 540, 720⟩ : Block), ⟨"Tue", 780, 1020⟩] =
      summarize_availability [(⟨"Tue", 780, 1020⟩ : Block), ⟨"Mon", 540, 720⟩] :=
  ⟨by decide, by decide, by decide,
   C6_summary_perm_invariant _ _ (by decide) (by decide) (by decide)⟩

end Medbook
